import Mathlib

/-
Verification development for the Mitre_Sim threat-intelligence browser
(src/super.py, src/cti-ta.py, src/cti-tech.py).

The Python sources are shallowly embedded below.  Python dicts holding STIX
objects become the `StixObject` structure (absent keys become `none`), the
flat bundle becomes a `List StixObject`, and functions that can raise become
`Except Unit` or `Option` valued, with `Except.error` / `none` marking the
exact places the Python code would raise (TypeError on `'x' in None`,
ValueError on `max()` of an empty sequence or a failed `int()`,
ZeroDivisionError in `math.ceil(m / 0)`).

In-place mutation of bundle objects (`tech_obj['platforms'] = ...` in
`get_techniques_for_actor`) is modelled by threading the evolving object
list (the "store") through the scan and replacing the first matching object
by its enriched copy.  The Python outer loop iterates the same list it
mutates; iterating the original snapshot is equivalent because only
attack-pattern objects are ever mutated, the mutation touches only the
`platforms` / `kill_chain_phase` keys, and the outer loop reads only
`type`, `source_ref` and `target_ref`, none of which is ever mutated.
-/

namespace MitreSim

/-! ## Python string primitives -/

/-- Does the pattern list match at the head of the second list?  Helper for
the substring test. -/
def matchesAt : List Char → List Char → Bool
  | [], _ => true
  | _ :: _, [] => false
  | c :: cs, d :: ds => c == d && matchesAt cs ds

/-- Scan for the pattern anywhere in the list.  Helper for the substring
test. -/
def subSearch (needle : List Char) : List Char → Bool
  | [] => needle.isEmpty
  | d :: ds => matchesAt needle (d :: ds) || subSearch needle ds

/-- Model of Python `needle in hay` on strings: substring containment. -/
def pyIn (needle hay : String) : Bool :=
  subSearch needle.toList hay.toList

/-- Lexicographic comparison of character lists by code point - the
ordering Python uses to compare strings. -/
def lexLe : List Char → List Char → Bool
  | [], _ => true
  | _ :: _, [] => false
  | c :: cs, d :: ds =>
    if c.toNat = d.toNat then lexLe cs ds
    else decide (c.toNat < d.toNat)

/-- Model of Python `a <= b` on strings. -/
def pyStrLe (a b : String) : Bool :=
  lexLe a.toList b.toList

/-- Model of Python `str.lower()` (character-wise lower-casing; the
keywords involved are ASCII, where `Char.toLower` agrees with Python). -/
def pyLower (s : String) : String :=
  String.mk (s.toList.map Char.toLower)

/-- Model of Python `str.capitalize()`: first character upper-cased, the
rest lower-cased (the keywords involved are ASCII, where `Char.toUpper` /
`Char.toLower` agree with Python). -/
def pyCapitalize (s : String) : String :=
  match s.toList with
  | [] => ""
  | c :: cs => String.mk (c.toUpper :: cs.map Char.toLower)

/-- Model of Python `str.replace('\n', ' ')`. -/
def pyReplaceNlSpace (s : String) : String :=
  String.mk (s.toList.map (fun c => if c = '\n' then ' ' else c))

/-- Model of Python `int(s)` restricted to the inputs this program meets:
optional surrounding whitespace, an optional sign, then one or more ASCII
digits; anything else raises ValueError (`none`).  (Python additionally
accepts underscores between digits and non-ASCII digits; no claim depends
on those.) -/
def pyInt? (s : String) : Option Int :=
  match (s.toList.dropWhile Char.isWhitespace).reverse.dropWhile Char.isWhitespace |>.reverse with
  | [] => none
  | c :: cs =>
    let p : Int × List Char :=
      if c = '-' then (-1, cs) else if c = '+' then (1, cs) else (1, c :: cs)
    if p.2.isEmpty then none
    else if p.2.all Char.isDigit then
      some (p.1 * (p.2.foldl (fun acc d => 10 * acc + (d.toNat - '0'.toNat)) 0 : Nat))
    else none

/-! ## Classifier
`extract_geo_info` / `extract_activity_type` / `extract_target_sector`
(src/super.py lines 52-71, duplicated in src/cti-ta.py lines 48-67). -/

/-- The test `keyword.lower() in description.lower()`. -/
def kwMatches (description kw : String) : Bool :=
  pyIn (pyLower kw) (pyLower description)

/-- The `for keyword in keywords: if keyword.lower() in description.lower():
return keyword` loop shared by the three extractors. -/
def matchKeyword (description : String) : List String → Option String
  | [] => none
  | kw :: rest =>
    if kwMatches description kw then some kw
    else matchKeyword description rest

def geo_keywords : List String :=
  ["China", "Russia", "Iran", "North Korea", "USA", "Vietnam", "India", "Europe"]

def activity_keywords : List String :=
  ["espionage", "financial", "theft", "sabotage", "ransomware", "malware"]

def sector_keywords : List String :=
  ["government", "financial", "healthcare", "technology", "energy", "military"]

/-- src/super.py `extract_geo_info`: first matching keyword verbatim, else
`"Unknown"`. -/
def extract_geo_info (description : String) : String :=
  (matchKeyword description geo_keywords).getD "Unknown"

/-- src/super.py `extract_activity_type`: first matching keyword
capitalized, else `"Other"`. -/
def extract_activity_type (description : String) : String :=
  match matchKeyword description activity_keywords with
  | some kw => pyCapitalize kw
  | none => "Other"

/-- src/super.py `extract_target_sector`: first matching keyword
capitalized, else `"Other"`. -/
def extract_target_sector (description : String) : String :=
  match matchKeyword description sector_keywords with
  | some kw => pyCapitalize kw
  | none => "Other"

/-! ## The STIX data model -/

/-- One STIX object of the bundle, restricted to the keys the program
reads.  A key absent from the underlying dict is `none`.  `platforms` and
`kill_chain_phase` are the two keys `get_techniques_for_actor` adds by
in-place mutation; they are absent (`none`) in freshly loaded objects. -/
structure StixObject where
  type_ : String
  id : String
  name : String
  description : Option String
  source_ref : Option String
  target_ref : Option String
  relationship_type : Option String
  x_mitre_platforms : Option (List String)
  kill_chain_phases : Option (List String)
  platforms : Option String
  kill_chain_phase : Option String
deriving DecidableEq

/-- The actor record built by `get_all_threat_actors`
(src/super.py lines 44-49). -/
structure ActorSummary where
  name : String
  geo_info : String
  activity_type : String
  target_sector : String
deriving DecidableEq

def mkActorSummary (o : StixObject) : ActorSummary :=
  let description := o.description.getD ""
  { name := o.name
    geo_info := extract_geo_info description
    activity_type := extract_activity_type description
    target_sector := extract_target_sector description }

/-- src/super.py `get_all_threat_actors` (lines 36-50): collect the
intrusion-set objects in bundle order, classify each, and return the list
sorted by name.  Python's `sorted(key=...)` is a stable ascending sort;
`List.insertionSort` is also stable and ascending, and any two stable
ascending sorts agree elementwise, so it models `sorted` exactly. -/
def get_all_threat_actors (bundle : List StixObject) : List ActorSummary :=
  ((bundle.filter (fun o => o.type_ == "intrusion-set")).map mkActorSummary).insertionSort
    (fun a b => pyStrLe a.name b.name = true)

/-! ## Relationship resolution with in-place enrichment
src/super.py `get_techniques_for_actor` (lines 79-89, duplicated at
src/cti-ta.py lines 75-85). -/

/-- The two enrichment assignments
`tech_obj['platforms'] = ', '.join(tech_obj.get('x_mitre_platforms', ['N/A']))` and
`tech_obj['kill_chain_phase'] = ', '.join(... kill_chain_phases ...)`
applied to a bundle object. -/
def enrich (t : StixObject) : StixObject :=
  { t with
    platforms := some (String.intercalate ", " (t.x_mitre_platforms.getD ["N/A"]))
    kill_chain_phase := some (String.intercalate ", " (t.kill_chain_phases.getD [])) }

/-- The lookup predicate of the inner `next(...)`:
`item.get('type') == 'attack-pattern' and item.get('id') == tech_id`. -/
def apPred (tref : String) (o : StixObject) : Bool :=
  o.type_ == "attack-pattern" && o.id == tref

/-- Replace the first element satisfying `p` by its image under `f`:
the value-level effect of mutating the object `next(...)` returned. -/
def updateFirst (p : α → Bool) (f : α → α) : List α → List α
  | [] => []
  | o :: rest => if p o then f o :: rest else o :: updateFirst p f rest

/-- One iteration of the `get_techniques_for_actor` scan, acting on the
current store.  `Except.error ()` is the TypeError Python raises on
`'attack-pattern' in None` when a matching relationship lacks a
`target_ref`. -/
def gtfaStep (actorId : String) (o : StixObject) (store : List StixObject) :
    Except Unit (List StixObject × Option StixObject) :=
  if o.type_ == "relationship" && o.source_ref == some actorId then
    match o.target_ref with
    | none => Except.error ()
    | some tref =>
      if pyIn "attack-pattern" tref then
        match store.find? (apPred tref) with
        | some t => Except.ok (updateFirst (apPred tref) enrich store, some (enrich t))
        | none => Except.ok (store, none)
      else Except.ok (store, none)
  else Except.ok (store, none)

/-- The full scan: first argument is the remaining objects to visit, second
the current store (initially the same list), third the reversed accumulator
of collected techniques. -/
def gtfaGo (actorId : String) :
    List StixObject → List StixObject → List StixObject →
    Except Unit (List StixObject × List StixObject)
  | [], store, acc => Except.ok (acc.reverse, store)
  | o :: rest, store, acc =>
    match gtfaStep actorId o store with
    | Except.error e => Except.error e
    | Except.ok (store', none) => gtfaGo actorId rest store' acc
    | Except.ok (store', some t) => gtfaGo actorId rest store' (t :: acc)

/-- src/super.py `get_techniques_for_actor`: returns the collected
(enriched) technique objects together with the final state of the bundle's
object list - the Python function returns only the list, but mutates the
bundle, so the final store is part of the observable behaviour. -/
def get_techniques_for_actor (bundle : List StixObject) (actorId : String) :
    Except Unit (List StixObject × List StixObject) :=
  gtfaGo actorId bundle bundle []

/-! ## The actors-for-tool resolver
src/cti-tech.py `get_actors_for_tool` (lines 57-70, duplicated at
src/super.py lines 248-261).  This direction builds fresh dicts and does
not mutate the bundle. -/

/-- The `{"name": ..., "description": ...}` dict built per correlated
actor. -/
structure ActorDisp where
  name : String
  description : String
deriving DecidableEq

/-- The lookup predicate of the inner `next(...)`:
`item.get('type') == 'intrusion-set' and item.get('id') == actor_id`. -/
def intrusionPred (aid : String) (o : StixObject) : Bool :=
  o.type_ == "intrusion-set" && o.id == aid

/-- Build the display dict: description defaulted, newlines collapsed to
spaces, the literal `" (ID: <id>)"` suffix appended. -/
def mkActorDisp (a : StixObject) : ActorDisp :=
  { name := a.name
    description :=
      pyReplaceNlSpace (a.description.getD "No description available")
        ++ " (ID: " ++ a.id ++ ")" }

/-- The `get_actors_for_tool` scan.  `table` is the bundle the inner
`next(...)` lookups search (never mutated on this path); the scanned list
is the third argument.  `Except.error ()` is the TypeError on
`'intrusion-set' in None`. -/
def gaftGo (toolId : String) (table : List StixObject) :
    List StixObject → Except Unit (List ActorDisp)
  | [] => Except.ok []
  | o :: rest =>
    if o.type_ == "relationship" && o.target_ref == some toolId then
      match o.source_ref with
      | none => Except.error ()
      | some sref =>
        if pyIn "intrusion-set" sref then
          match table.find? (intrusionPred sref) with
          | some a => (gaftGo toolId table rest).map (fun l => mkActorDisp a :: l)
          | none => gaftGo toolId table rest
        else gaftGo toolId table rest
    else gaftGo toolId table rest

/-- src/cti-tech.py `get_actors_for_tool`. -/
def get_actors_for_tool (bundle : List StixObject) (toolId : String) :
    Except Unit (List ActorDisp) :=
  gaftGo toolId bundle bundle

/-- `{o with relationship_type := v}`: the object with its
`relationship_type` key rewritten, used to state that the resolvers never
read that key. -/
def setRelationshipType (o : StixObject) (v : Option String) : StixObject :=
  { o with relationship_type := v }

/-! ## Grouping engine
`display_threat_actors_by_geo` / `_by_activity` / `_by_sector`
(src/super.py lines 123-220, duplicated in src/cti-ta.py lines 119-216);
the three differ only in the grouping key, so the engine is parametrised
by `key`. -/

/-- Append one actor to its bucket, creating the bucket at the end if this
is the first actor with that key - exactly the insertion-ordered behaviour
of the `geo_groups` dict. -/
def addToGroups (groups : List (String × List ActorSummary)) (k : String)
    (a : ActorSummary) : List (String × List ActorSummary) :=
  match groups with
  | [] => [(k, [a])]
  | g :: rest => if g.1 = k then (g.1, g.2 ++ [a]) :: rest else g :: addToGroups rest k a

/-- The `for actor in threat_actors: groups[key].append(actor)` loop. -/
def groupByKey (key : ActorSummary → String) (actors : List ActorSummary) :
    List (String × List ActorSummary) :=
  actors.foldl (fun g a => addToGroups g (key a) a) []

/-- `num_columns = min(6, console.size.width // 15)` - note: no clamping to
a minimum of 1 appears in the source. -/
def num_columns (width : Nat) : Nat := min 6 (width / 15)

/-- The layout arithmetic of the display functions: the bucket list, and
`num_rows = math.ceil(max_actors / num_columns)`.  `none` models the two
exceptions on this path: `max()` of an empty sequence raises ValueError
when there are no actors, and `math.ceil(max_actors / 0)` raises
ZeroDivisionError when the console is narrower than 15 cells. -/
def layoutParams (key : ActorSummary → String) (actors : List ActorSummary)
    (width : Nat) : Option (List (String × List ActorSummary) × Nat) :=
  let groups := groupByKey key actors
  match (groups.map (fun g => g.2.length)).max? with
  | none => none
  | some maxActors =>
    let nc := num_columns width
    if nc = 0 then none
    else some (groups, (maxActors + nc - 1) / nc)

/-- The cell text `f"{index}. {name}"`. -/
def mkCell (i : Nat) (name : String) : String :=
  toString i ++ ". " ++ name

/-- One pass of the inner `for geo_info, actors in geo_groups.items()`
loop at a given `row`, starting from display index `idx`.  Returns the
row's cell texts (blank cells are `""`), the names appended to
`actor_list`, and the updated index. -/
def rowCells (row idx : Nat) :
    List (String × List ActorSummary) → List String × List String × Nat
  | [] => ([], [], idx)
  | g :: gs =>
    match g.2[row]? with
    | some a =>
      let rest := rowCells row (idx + 1) gs
      (mkCell idx a.name :: rest.1, a.name :: rest.2.1, rest.2.2)
    | none =>
      let rest := rowCells row idx gs
      ("" :: rest.1, rest.2.1, rest.2.2)

/-- The outer `for row in range(num_rows)` loop: builds the table rows and
the flat `actor_list`, threading the running display index. -/
def renderRows (groups : List (String × List ActorSummary)) :
    List Nat → Nat → List (List String) × List String
  | [], _ => ([], [])
  | r :: rs, idx =>
    let row := rowCells r idx groups
    let rest := renderRows groups rs row.2.2
    (row.1 :: rest.1, row.2.1 ++ rest.2)

/-- The whole display function: `some (table rows, actor_list)` on success,
`none` where the Python raises (empty actor list, or a console narrower
than 15 cells). -/
def displayGrouped (key : ActorSummary → String) (actors : List ActorSummary)
    (width : Nat) : Option (List (List String) × List String) :=
  match layoutParams key actors width with
  | none => none
  | some p => some (renderRows p.1 (List.range p.2) 1)

/-- The cell texts paired with a running 1-based display index starting at
`n`: position `i` of the list carries index `n + i`. -/
def numberFrom : Nat → List String → List String
  | _, [] => []
  | n, s :: ss => mkCell n s :: numberFrom (n + 1) ss

/-- Modelled from the spec: the names of the non-blank cells of one row
`r`, visiting the buckets left-to-right in first-seen order (cell
`(r, bucket)` holds the `r`'th member of the bucket if present, else
blank). -/
def bucketNamesAt (groups : List (String × List ActorSummary)) (r : Nat) : List String :=
  groups.filterMap (fun g => (g.2[r]?).map (fun a => a.name))

/-- Modelled from the spec: the documented row-major, bucket-minor scan
(row 0 across all buckets left-to-right, then row 1, ...), collecting the
entity at every non-blank cell. -/
def specScanNames (groups : List (String × List ActorSummary)) (numRows : Nat) : List String :=
  (List.range numRows).flatMap (fun r => bucketNamesAt groups r)

/-- src/super.py `display_threat_actors_by_geo` (lines 123-154). -/
def display_threat_actors_by_geo (actors : List ActorSummary) (width : Nat) :
    Option (List (List String) × List String) :=
  displayGrouped (fun a => a.geo_info) actors width

/-- src/cti-ta.py `display_threat_actors_by_activity` (lines 152-183). -/
def display_threat_actors_by_activity (actors : List ActorSummary) (width : Nat) :
    Option (List (List String) × List String) :=
  displayGrouped (fun a => a.activity_type) actors width

/-! ## Pagination
The inline pager of `main` (src/super.py lines 454-482, src/cti-ta.py
lines 323-351). -/

/-- `total_pages = math.ceil(len(techniques) / page_size)` on natural
numbers (exact for positive `size`). -/
def totalPages (n size : Nat) : Nat := (n + size - 1) / size

/-- The slice shown for 1-based page `p`:
`techniques[(p-1)*size : (p-1)*size + size]`. -/
def pageSlice (items : List α) (size p : Nat) : List α :=
  (items.drop ((p - 1) * size)).take size

/-- All pages in order, page `p` at position `p - 1`. -/
def paginate (items : List α) (size : Nat) : List (List α) :=
  (List.range (totalPages items.length size)).map (fun k => pageSlice items size (k + 1))

/-- Outcome of feeding one navigation token to the pager loop. -/
inductive NavResult where
  | toPage : Nat → NavResult
  | exitPager : NavResult
  | invalid : NavResult
deriving DecidableEq

/-- The pager's transition on one lower-cased input line, read off the
`if current_page == total_pages: ... else: ...` blocks of `main`.
`invalid` prints "Invalid input." and re-runs the loop with `current_page`
unchanged. -/
def pagerStep (currentPage total : Nat) (nav : String) : NavResult :=
  if currentPage == total then
    if nav == "" || nav == "q" then NavResult.exitPager
    else if nav == "p" && decide (1 < currentPage) then NavResult.toPage (currentPage - 1)
    else NavResult.invalid
  else
    if nav == "" && decide (currentPage < total) then NavResult.toPage (currentPage + 1)
    else if nav == "p" && decide (1 < currentPage) then NavResult.toPage (currentPage - 1)
    else if nav == "q" then NavResult.exitPager
    else NavResult.invalid

/-! ## Numeric selection
`choice = int(input) - 1; if choice < 0 or choice >= len(lst): raise`
(src/super.py lines 435-442 and 490-499, src/cti-ta.py lines 304-311,
src/cti-tech.py lines 156-165). -/

/-- `some choice` for an accepted selection (0-based index into the
displayed list), `none` when `int()` raises ValueError or the range check
raises it. -/
def selectIndex (listLen : Nat) (input : String) : Option Nat :=
  match pyInt? input with
  | none => none
  | some n =>
    let choice : Int := n - 1
    if choice < 0 ∨ (listLen : Int) ≤ choice then none else some choice.toNat

/-- What `main` in src/cti-tech.py does after one selection. -/
inductive TechFlow where
  | reprompt : Nat → TechFlow
  | sessionEnd : TechFlow
deriving DecidableEq

/-- src/cti-tech.py `main` (lines 156-168): a valid selection displays the
tool and recurses into `main()` (so the user is prompted again); the
`except ValueError` branch prints and `return`s, ending the session. -/
def ctiTechSelect (toolNames : List String) (input : String) : TechFlow :=
  match selectIndex toolNames.length input with
  | none => TechFlow.sessionEnd
  | some i => TechFlow.reprompt i

/-! ## Concrete fixtures used by witnesses and counterexamples -/

/-- A freshly loaded attack-pattern object (no `platforms` /
`kill_chain_phase` keys yet). -/
def apDemo : StixObject :=
  { type_ := "attack-pattern", id := "attack-pattern--7", name := "T1"
    description := some "d", source_ref := none, target_ref := none
    relationship_type := some "uses"
    x_mitre_platforms := some ["Windows", "Linux"]
    kill_chain_phases := some ["execution"]
    platforms := none, kill_chain_phase := none }

/-- A `uses` relationship from an intrusion set to `apDemo`. -/
def relDemo : StixObject :=
  { type_ := "relationship", id := "relationship--1", name := ""
    description := none
    source_ref := some "intrusion-set--1", target_ref := some "attack-pattern--7"
    relationship_type := some "uses"
    x_mitre_platforms := none, kill_chain_phases := none
    platforms := none, kill_chain_phase := none }

/-- A relationship whose `target_ref` resolves to nothing in the store. -/
def relDangling : StixObject :=
  { type_ := "relationship", id := "relationship--2", name := ""
    description := none
    source_ref := some "intrusion-set--1", target_ref := some "attack-pattern--9"
    relationship_type := some "uses"
    x_mitre_platforms := none, kill_chain_phases := none
    platforms := none, kill_chain_phase := none }

/-- A relationship whose `target_ref` does not contain the substring
`"attack-pattern"` (it points at a course-of-action). -/
def relOdd : StixObject :=
  { type_ := "relationship", id := "relationship--3", name := ""
    description := none
    source_ref := some "intrusion-set--1", target_ref := some "course-of-action--11"
    relationship_type := some "mitigates"
    x_mitre_platforms := none, kill_chain_phases := none
    platforms := none, kill_chain_phase := none }

/-- A relationship into `tool--1` whose `source_ref` resolves to nothing
in the store. -/
def relToolDangling : StixObject :=
  { type_ := "relationship", id := "relationship--4", name := ""
    description := none
    source_ref := some "intrusion-set--9", target_ref := some "tool--1"
    relationship_type := some "uses"
    x_mitre_platforms := none, kill_chain_phases := none
    platforms := none, kill_chain_phase := none }

/-- A relationship into `tool--1` whose `source_ref` does not contain the
substring `"intrusion-set"` (a malware uses the tool). -/
def relToolMalware : StixObject :=
  { type_ := "relationship", id := "relationship--5", name := ""
    description := none
    source_ref := some "malware--3", target_ref := some "tool--1"
    relationship_type := some "uses"
    x_mitre_platforms := none, kill_chain_phases := none
    platforms := none, kill_chain_phase := none }

/-- Relates a bundle object to its state after one
`get_techniques_for_actor` call: either untouched, or an attack-pattern
overwritten in place by its enriched copy. -/
def mutOk (o o2 : StixObject) : Prop :=
  o2 = o ∨ (o.type_ = "attack-pattern" ∧ o2 = enrich o)

/-- An intrusion-set object named `"APT1"`. -/
def intrusionA : StixObject :=
  { type_ := "intrusion-set", id := "intrusion-set--1", name := "APT1"
    description := some "espionage against government networks in China"
    source_ref := none, target_ref := none, relationship_type := none
    x_mitre_platforms := none, kill_chain_phases := none
    platforms := none, kill_chain_phase := none }

/-- A second intrusion-set object with the same name `"APT1"`. -/
def intrusionB : StixObject :=
  { type_ := "intrusion-set", id := "intrusion-set--2", name := "APT1"
    description := none
    source_ref := none, target_ref := none, relationship_type := none
    x_mitre_platforms := none, kill_chain_phases := none
    platforms := none, kill_chain_phase := none }

/-- An intrusion-set object named `"APT2"`. -/
def intrusionC : StixObject :=
  { type_ := "intrusion-set", id := "intrusion-set--3", name := "APT2"
    description := some "ransomware for financial gain, based in Russia"
    source_ref := none, target_ref := none, relationship_type := none
    x_mitre_platforms := none, kill_chain_phases := none
    platforms := none, kill_chain_phase := none }

def demoAlpha : ActorSummary :=
  { name := "Alpha", geo_info := "China", activity_type := "Other", target_sector := "Other" }

def demoBeta : ActorSummary :=
  { name := "Beta", geo_info := "China", activity_type := "Other", target_sector := "Other" }

def demoGamma : ActorSummary :=
  { name := "Gamma", geo_info := "Russia", activity_type := "Other", target_sector := "Other" }

/-! # Theorems -/

/-! ## C3 - behaviour of the pager on the last page -/

/-- C3: the claim states that on the last page the empty input returns the
pager to page 1 and paging continues.  On the code, the empty input on the
last page takes the `if nav == '' or nav == 'q': break` branch: it exits
the pager loop exactly like `q`, and does not transition to page 1.
Counterexample at `current_page = total_pages = 1`. -/
theorem c3_counterexample :
    pagerStep 1 1 "" = NavResult.exitPager ∧ pagerStep 1 1 "" ≠ NavResult.toPage 1 := by
  decide

/-- C3 amended: on the last page the empty input exits the pager loop
(control returns to the enclosing menu), with exactly the same transition
as the quit token `q`; it is not an error and it is not a move to page 1. -/
theorem c3_amended (currentPage total : Nat) (h : currentPage = total) :
    pagerStep currentPage total "" = NavResult.exitPager
    ∧ pagerStep currentPage total "" = pagerStep currentPage total "q" := by
  subst h
  constructor <;> simp [pagerStep]

theorem c3_amended_witness :
    pagerStep 3 3 "" = NavResult.exitPager ∧ pagerStep 3 3 "" = pagerStep 3 3 "q" :=
  c3_amended 3 3 rfl

/-! ## C4 - column arithmetic for narrow consoles -/

/-- C4: the claim states `num_columns` is clamped to at least 1 and the row
computation never divides by zero.  The source computes
`min(6, width // 15)` with no clamp; at any console width below 15 this is
0 and `math.ceil(max_actors / num_columns)` raises ZeroDivisionError
(modelled by the `none` branch of `layoutParams`).  Evaluation at the
failing input width 14 with a single classified actor. -/
theorem c4_failing_eval :
    num_columns 14 = 0
    ∧ display_threat_actors_by_geo [demoAlpha] 14 = none
    ∧ num_columns 15 = 1 ∧ num_columns 200 = 6 := by
  decide

/-! ## C5 - validity of numeric selections and invalid-input handling -/

/-- C5: the claim also states that the interactive loop always re-prompts
after an invalid selection.  In src/cti-tech.py `main` the
`except ValueError` handler prints and `return`s: an out-of-range or
non-numeric selection ends the session instead of re-prompting
(`TechFlow.sessionEnd`; the re-prompt outcome would be
`TechFlow.reprompt`).  Counterexample: non-numeric input against a
10-entry tool list. -/
theorem c5_counterexample :
    ctiTechSelect ["PsExec", "Mimikatz", "Cobalt Strike", "Empire", "PowerSploit",
      "BloodHound", "Rubeus", "Sharphound", "LaZagne", "Impacket"] "abc"
      = TechFlow.sessionEnd := by
  decide

/-- C5 amended: (1) a numeric selection `n` is accepted iff
`1 <= n <= L`; (2) `p` on page 1 is reported invalid; (3) any token other
than the three literals is reported invalid with `current_page` unchanged
(the `invalid` outcome re-runs the loop on the same page); (4) but in
src/cti-tech.py an invalid selection ends the session instead of
re-prompting. -/
theorem c5_amended :
    (∀ (len : Nat) (s : String),
      (selectIndex len s).isSome = true
        ↔ ∃ n : Int, pyInt? s = some n ∧ 1 ≤ n ∧ n ≤ (len : Int))
    ∧ (∀ total : Nat, pagerStep 1 total "p" = NavResult.invalid)
    ∧ (∀ (cp total : Nat) (s : String),
        s ≠ "" → s ≠ "p" → s ≠ "q" → pagerStep cp total s = NavResult.invalid)
    ∧ (∀ (toolNames : List String) (s : String),
        selectIndex toolNames.length s = none → ctiTechSelect toolNames s = TechFlow.sessionEnd) := by
  refine ⟨?_, ?_, ?_, ?_⟩
  · intro len s
    rcases h : pyInt? s with _ | n
    · simp [selectIndex, h]
    · simp only [selectIndex, h]
      split
      · simp only [Option.isSome_none, Bool.false_eq_true, false_iff]
        rintro ⟨m, hm, h1, h2⟩
        rw [Option.some_inj] at hm
        omega
      · simp only [Option.isSome_some, true_iff]
        refine ⟨n, rfl, ?_, ?_⟩ <;> omega
  · intro total
    cases h : ((1 : Nat) == total) <;> simp [pagerStep, h]
  · intro cp total s h1 h2 h3
    have e1 : (s == "") = false := beq_eq_false_iff_ne.mpr h1
    have e2 : (s == "p") = false := beq_eq_false_iff_ne.mpr h2
    have e3 : (s == "q") = false := beq_eq_false_iff_ne.mpr h3
    cases h : (cp == total) <;> simp [pagerStep, h, e1, e2, e3]
  · intro toolNames s h
    simp [ctiTechSelect, h]

theorem c5_amended_witness :
    ((selectIndex 10 "3").isSome = true
      ↔ ∃ n : Int, pyInt? "3" = some n ∧ 1 ≤ n ∧ n ≤ (10 : Int))
    ∧ pagerStep 1 4 "p" = NavResult.invalid
    ∧ pagerStep 2 4 "zz" = NavResult.invalid
    ∧ ctiTechSelect ["A", "B"] "9" = TechFlow.sessionEnd :=
  ⟨c5_amended.1 10 "3", c5_amended.2.1 4,
    c5_amended.2.2.1 2 4 "zz" (by decide) (by decide) (by decide),
    c5_amended.2.2.2 ["A", "B"] "9" (by decide)⟩

/-! ## C6 - first-match-wins keyword classification -/

/-- If the keyword at position `i` matches and no earlier keyword does,
the scan returns exactly that keyword. -/
theorem matchKeyword_eq_of_first (d : String) :
    ∀ (kws : List String) (i : Nat) (h : i < kws.length),
      kwMatches d (kws.get ⟨i, h⟩) = true →
      (∀ j (hj : j < i), kwMatches d (kws.get ⟨j, Nat.lt_trans hj h⟩) = false) →
      matchKeyword d kws = some (kws.get ⟨i, h⟩) := by
  intro kws
  induction kws with
  | nil => intro i h; exact absurd h (by simp)
  | cons kw rest ih =>
    intro i h hp hprev
    cases i with
    | zero =>
      have hkw : kwMatches d kw = true := hp
      unfold matchKeyword
      rw [hkw]
      simp
    | succ i =>
      have h0 : kwMatches d kw = false := hprev 0 (Nat.succ_pos i)
      unfold matchKeyword
      rw [h0]
      simp only [Bool.false_eq_true, if_false]
      exact ih i (Nat.lt_of_succ_lt_succ h) hp (fun j hj => hprev (j + 1) (Nat.succ_lt_succ hj))

/-- If no keyword matches, the scan falls through to `none`. -/
theorem matchKeyword_eq_none (d : String) :
    ∀ kws : List String, (∀ kw ∈ kws, kwMatches d kw = false) → matchKeyword d kws = none := by
  intro kws
  induction kws with
  | nil => intro; rfl
  | cons kw rest ih =>
    intro hall
    unfold matchKeyword
    rw [hall kw (List.mem_cons_self kw rest)]
    simp only [Bool.false_eq_true, if_false]
    exact ih (fun k hk => hall k (List.mem_cons_of_mem kw hk))

/-- C6: each extractor returns the tag of the first keyword, in the fixed
list order, that occurs case-insensitively in the description (verbatim
for geography, capitalized for activity and sector); when no keyword of
the axis occurs - in particular for the empty description (the value used
when the key is missing) - it returns the axis's fallback tag. -/
theorem c6_classifier (d : String) :
    (∀ i (h : i < geo_keywords.length),
        kwMatches d (geo_keywords.get ⟨i, h⟩) = true →
        (∀ j (hj : j < i), kwMatches d (geo_keywords.get ⟨j, Nat.lt_trans hj h⟩) = false) →
        extract_geo_info d = geo_keywords.get ⟨i, h⟩)
    ∧ ((∀ kw ∈ geo_keywords, kwMatches d kw = false) → extract_geo_info d = "Unknown")
    ∧ (∀ i (h : i < activity_keywords.length),
        kwMatches d (activity_keywords.get ⟨i, h⟩) = true →
        (∀ j (hj : j < i), kwMatches d (activity_keywords.get ⟨j, Nat.lt_trans hj h⟩) = false) →
        extract_activity_type d = pyCapitalize (activity_keywords.get ⟨i, h⟩))
    ∧ ((∀ kw ∈ activity_keywords, kwMatches d kw = false) → extract_activity_type d = "Other")
    ∧ (∀ i (h : i < sector_keywords.length),
        kwMatches d (sector_keywords.get ⟨i, h⟩) = true →
        (∀ j (hj : j < i), kwMatches d (sector_keywords.get ⟨j, Nat.lt_trans hj h⟩) = false) →
        extract_target_sector d = pyCapitalize (sector_keywords.get ⟨i, h⟩))
    ∧ ((∀ kw ∈ sector_keywords, kwMatches d kw = false) → extract_target_sector d = "Other")
    ∧ (extract_geo_info "" = "Unknown" ∧ extract_activity_type "" = "Other"
        ∧ extract_target_sector "" = "Other") := by
  refine ⟨?_, ?_, ?_, ?_, ?_, ?_, by decide⟩
  · intro i h hp hprev
    unfold extract_geo_info
    rw [matchKeyword_eq_of_first d geo_keywords i h hp hprev]
    rfl
  · intro hall
    unfold extract_geo_info
    rw [matchKeyword_eq_none d geo_keywords hall]
    rfl
  · intro i h hp hprev
    unfold extract_activity_type
    rw [matchKeyword_eq_of_first d activity_keywords i h hp hprev]
  · intro hall
    unfold extract_activity_type
    rw [matchKeyword_eq_none d activity_keywords hall]
  · intro i h hp hprev
    unfold extract_target_sector
    rw [matchKeyword_eq_of_first d sector_keywords i h hp hprev]
  · intro hall
    unfold extract_target_sector
    rw [matchKeyword_eq_none d sector_keywords hall]

/-- Witness: the spec's own scenario.  `"China"` wins for geography even
though `"Russia"` is absent and `"financial"` occurs before `"China"` in
the text; `"financial"` beats the later-listed `"theft"`; sector
`"financial"` beats the later-listed keywords; the empty description
falls back. -/
theorem c6_classifier_witness :
    extract_geo_info "State-sponsored group targeting financial institutions in China" = "China"
    ∧ extract_activity_type "State-sponsored group targeting financial institutions in China"
        = "Financial"
    ∧ extract_target_sector "State-sponsored group targeting financial institutions in China"
        = "Financial"
    ∧ extract_geo_info "" = "Unknown" := by
  refine ⟨?_, ?_, ?_, (c6_classifier "").2.2.2.2.2.2.1⟩
  · exact (c6_classifier _).1 0 (by decide) (by decide)
      (fun j hj => absurd hj (Nat.not_lt_zero j))
  · exact (c6_classifier _).2.2.1 1 (by decide) (by decide)
      (fun j hj => by
        have hj0 : j = 0 := Nat.lt_one_iff.mp hj
        subst hj0
        exact (by decide :
          kwMatches "State-sponsored group targeting financial institutions in China"
            "espionage" = false))
  · exact (c6_classifier _).2.2.2.2.1 1 (by decide) (by decide)
      (fun j hj => by
        have hj0 : j = 0 := Nat.lt_one_iff.mp hj
        subst hj0
        exact (by decide :
          kwMatches "State-sponsored group targeting financial institutions in China"
            "government" = false))

/-! ## C8 - pagination covers the list exactly -/

theorem totalPages_eq (m size : Nat) (hm : 0 < m) (hs : 0 < size) :
    totalPages m size = (m - 1) / size + 1 := by
  unfold totalPages
  rw [show m + size - 1 = (m - 1) + size by omega, Nat.add_div_right _ hs]

theorem totalPages_zero (size : Nat) : totalPages 0 size = 0 := by
  unfold totalPages
  rcases Nat.eq_zero_or_pos size with h | h
  · subst h; rfl
  · rw [Nat.zero_add]; exact Nat.div_eq_of_lt (by omega)

theorem totalPages_succ (n size : Nat) (hn : 0 < n) (hs : 0 < size) :
    totalPages n size = totalPages (n - size) size + 1 := by
  rcases le_or_lt n size with h | h
  · have h0 : n - size = 0 := by omega
    rw [h0, totalPages_zero, totalPages_eq n size hn hs, Nat.div_eq_of_lt (by omega)]
  · rw [totalPages_eq n size hn hs, totalPages_eq (n - size) size (by omega) hs,
      show n - 1 = (n - size - 1) + size by omega, Nat.add_div_right _ hs]

theorem paginate_nil {α : Type} (size : Nat) : paginate ([] : List α) size = [] := by
  simp [paginate, totalPages_zero]

theorem paginate_cons {α : Type} (items : List α) (size : Nat) (hs : 0 < size)
    (hne : items ≠ []) :
    paginate items size = items.take size :: paginate (items.drop size) size := by
  have hlen : 0 < items.length := List.length_pos.mpr hne
  unfold paginate
  rw [List.length_drop, totalPages_succ items.length size hlen hs, List.range_succ_eq_map]
  simp only [List.map_cons, List.map_map]
  refine congrArg₂ List.cons ?_ ?_
  · simp [pageSlice]
  · refine List.map_congr_left (fun k _ => ?_)
    show (items.drop ((Nat.succ k + 1 - 1) * size)).take size
      = ((items.drop size).drop ((k + 1 - 1) * size)).take size
    rw [List.drop_drop]
    have harith : (Nat.succ k + 1 - 1) * size = size + (k + 1 - 1) * size := by
      simp [Nat.succ_mul, Nat.add_comm]
    rw [harith]

theorem paginate_flatten {α : Type} (size : Nat) (hs : 0 < size) :
    ∀ (n : Nat) (items : List α), items.length ≤ n → (paginate items size).flatten = items := by
  intro n
  induction n with
  | zero =>
    intro items h
    have he : items = [] := List.length_eq_zero.mp (Nat.le_zero.mp h)
    subst he
    simp [paginate_nil]
  | succ n ih =>
    intro items h
    rcases eq_or_ne items [] with he | he
    · subst he; simp [paginate_nil]
    · have hlen : 0 < items.length := List.length_pos.mpr he
      rw [paginate_cons items size hs he, List.flatten_cons,
        ih (items.drop size) (by rw [List.length_drop]; omega), List.take_append_drop]

theorem pageSlice_length {α : Type} (items : List α) (size p : Nat) (hs : 0 < size)
    (h1 : 1 ≤ p) (h2 : p < totalPages items.length size) :
    (pageSlice items size p).length = size := by
  have hmul : (p + 1) * size ≤ items.length + size - 1 :=
    (Nat.le_div_iff_mul_le hs).mp (by unfold totalPages at h2; omega)
  have hsucc : (p + 1) * size = p * size + size := Nat.succ_mul p size
  have hsub : (p - 1) * size = p * size - 1 * size := Nat.sub_mul p 1 size
  have hple : 1 * size ≤ p * size := Nat.mul_le_mul_right size h1
  simp only [pageSlice, List.length_take, List.length_drop]
  omega

theorem paginate_getElem? {α : Type} (items : List α) (size p : Nat) (h1 : 1 ≤ p)
    (h2 : p ≤ totalPages items.length size) :
    (paginate items size)[p - 1]? = some (pageSlice items size p) := by
  unfold paginate
  rw [List.getElem?_map, List.getElem?_range (by omega), Option.map_some',
    show p - 1 + 1 = p by omega]

/-- C8: for a positive page size, pagination yields exactly
`ceil(len/size)` pages (second conjunct spells the ceiling formula out on
naturals), their concatenation in page order is the original list with
no overlap and no gap, every page strictly before the last holds exactly
`size` items, and the 1-indexed page `p` sits at position `p - 1`. -/
theorem c8_pagination {α : Type} (items : List α) (size : Nat) (hs : 0 < size) :
    (paginate items size).length = totalPages items.length size
    ∧ totalPages items.length size = (items.length + size - 1) / size
    ∧ (paginate items size).flatten = items
    ∧ (∀ p, 1 ≤ p → p < totalPages items.length size → (pageSlice items size p).length = size)
    ∧ (∀ p, 1 ≤ p → p ≤ totalPages items.length size →
        (paginate items size)[p - 1]? = some (pageSlice items size p)) :=
  ⟨by simp [paginate], rfl, paginate_flatten size hs items.length items (le_refl _),
    fun p h1 h2 => pageSlice_length items size p hs h1 h2,
    fun p h1 h2 => paginate_getElem? items size p h1 h2⟩

theorem c8_pagination_witness :
    0 < 5 ∧ (paginate [10, 20, 30, 40, 50, 60, 70] 5).flatten = [10, 20, 30, 40, 50, 60, 70] :=
  ⟨by decide, (c8_pagination [10, 20, 30, 40, 50, 60, 70] 5 (by decide)).2.2.1⟩

/-! ## C7 - name uniqueness in the sorted actor list -/

theorem lexLe_total : ∀ a b : List Char, lexLe a b = true ∨ lexLe b a = true := by
  intro a
  induction a with
  | nil => intro b; left; rfl
  | cons c cs ih =>
    intro b
    cases b with
    | nil => right; rfl
    | cons d ds =>
      by_cases h : c.toNat = d.toNat
      · have h2 : d.toNat = c.toNat := h.symm
        rcases ih ds with hl | hr
        · left; simp [lexLe, h, hl]
        · right; simp [lexLe, h2, hr]
      · have h2 : ¬ d.toNat = c.toNat := fun e => h e.symm
        rcases Nat.lt_or_ge c.toNat d.toNat with hlt | hge
        · left; simp [lexLe, h, hlt]
        · have hgt : d.toNat < c.toNat := by omega
          right; simp [lexLe, h2, hgt]

theorem lexLe_trans :
    ∀ a b c : List Char, lexLe a b = true → lexLe b c = true → lexLe a c = true := by
  intro a
  induction a with
  | nil => intro b c _ _; rfl
  | cons x xs ih =>
    intro b c hab hbc
    cases b with
    | nil => simp [lexLe] at hab
    | cons y ys =>
      cases c with
      | nil => simp [lexLe] at hbc
      | cons z zs =>
        by_cases h1 : x.toNat = y.toNat <;> by_cases h2 : y.toNat = z.toNat
        · have h3 : x.toNat = z.toNat := by omega
          simp only [lexLe, if_pos h1] at hab
          simp only [lexLe, if_pos h2] at hbc
          simp only [lexLe, if_pos h3]
          exact ih ys zs hab hbc
        · simp only [lexLe, if_neg h2, decide_eq_true_eq] at hbc
          have h3 : ¬ x.toNat = z.toNat := by omega
          simp only [lexLe, if_neg h3, decide_eq_true_eq]
          omega
        · simp only [lexLe, if_neg h1, decide_eq_true_eq] at hab
          have h3 : ¬ x.toNat = z.toNat := by omega
          simp only [lexLe, if_neg h3, decide_eq_true_eq]
          omega
        · simp only [lexLe, if_neg h1, decide_eq_true_eq] at hab
          simp only [lexLe, if_neg h2, decide_eq_true_eq] at hbc
          have h3 : ¬ x.toNat = z.toNat := by omega
          simp only [lexLe, if_neg h3, decide_eq_true_eq]
          omega

/-- C7: the claim asserts name uniqueness for every loaded bundle, but
`get_all_threat_actors` never deduplicates: a bundle holding two
intrusion-set objects that share the name `"APT1"` yields an actor list in
which `"APT1"` appears twice. -/
theorem c7_counterexample :
    (get_all_threat_actors [intrusionA, intrusionB]).map (fun a => a.name) = ["APT1", "APT1"]
    ∧ ¬ ((get_all_threat_actors [intrusionA, intrusionB]).map (fun a => a.name)).Nodup := by
  exact ⟨by decide, by decide⟩

/-- C7 amended: names are unique in the session's actor list exactly when
the bundle's intrusion-set objects already carry pairwise distinct names
(sorting is a permutation and cannot merge or drop entries); the returned
list is sorted by name under Python's code-point string order. -/
theorem c7_amended (bundle : List StixObject)
    (h : ((bundle.filter (fun o => o.type_ == "intrusion-set")).map (fun o => o.name)).Nodup) :
    ((get_all_threat_actors bundle).map (fun a => a.name)).Nodup
    ∧ List.Sorted (fun a b : ActorSummary => pyStrLe a.name b.name = true)
        (get_all_threat_actors bundle) := by
  constructor
  · have hperm :=
      (List.perm_insertionSort (fun a b : ActorSummary => pyStrLe a.name b.name = true)
        ((bundle.filter (fun o => o.type_ == "intrusion-set")).map mkActorSummary)).map
        (fun a : ActorSummary => a.name)
    have hnames :
        (((bundle.filter (fun o => o.type_ == "intrusion-set")).map mkActorSummary).map
            (fun a : ActorSummary => a.name))
          = (bundle.filter (fun o => o.type_ == "intrusion-set")).map (fun o => o.name) := by
      rw [List.map_map]; rfl
    rw [hnames] at hperm
    exact hperm.symm.nodup h
  · haveI : IsTotal ActorSummary (fun a b => pyStrLe a.name b.name = true) :=
      ⟨fun a b => lexLe_total a.name.toList b.name.toList⟩
    haveI : IsTrans ActorSummary (fun a b => pyStrLe a.name b.name = true) :=
      ⟨fun a b c => lexLe_trans a.name.toList b.name.toList c.name.toList⟩
    exact List.sorted_insertionSort _ _

theorem c7_amended_witness :
    ((get_all_threat_actors [intrusionC, intrusionA]).map (fun a => a.name)).Nodup
    ∧ List.Sorted (fun a b : ActorSummary => pyStrLe a.name b.name = true)
        (get_all_threat_actors [intrusionC, intrusionA]) :=
  c7_amended [intrusionC, intrusionA] (by decide)

/-! ## C1 - the index-to-entity mapping of the grouped view -/

theorem mkCell_beq_empty (i : Nat) (s : String) : (mkCell i s == "") = false := by
  rw [beq_eq_false_iff_ne]
  intro h
  have hlen := congrArg String.length h
  rw [mkCell, String.length_append, String.length_append] at hlen
  have h2 : (". " : String).length = 2 := rfl
  have h0 : ("" : String).length = 0 := rfl
  omega

theorem numberFrom_length (l : List String) : ∀ n : Nat, (numberFrom n l).length = l.length := by
  induction l with
  | nil => intro n; rfl
  | cons s ss ih => intro n; simp [numberFrom, ih]

theorem numberFrom_append (xs ys : List String) :
    ∀ n : Nat, numberFrom n (xs ++ ys) = numberFrom n xs ++ numberFrom (n + xs.length) ys := by
  induction xs with
  | nil => intro n; simp [numberFrom]
  | cons x xs ih =>
    intro n
    simp only [List.cons_append, numberFrom, List.length_cons]
    show mkCell n x :: numberFrom (n + 1) (xs ++ ys)
      = mkCell n x :: (numberFrom (n + 1) xs ++ numberFrom (n + (xs.length + 1)) ys)
    rw [ih (n + 1), show n + 1 + xs.length = n + (xs.length + 1) by omega]

/-- One row of the grouped table: the collected names are exactly the
row's non-blank cells in bucket order, the non-blank cell texts are those
names numbered consecutively from the incoming display index, and the
index advances by the number of non-blank cells. -/
theorem rowCells_spec (row : Nat) (groups : List (String × List ActorSummary)) :
    ∀ idx : Nat,
      (rowCells row idx groups).2.1 = bucketNamesAt groups row
      ∧ (rowCells row idx groups).1.filter (fun c => !(c == ""))
          = numberFrom idx (rowCells row idx groups).2.1
      ∧ (rowCells row idx groups).2.2 = idx + (rowCells row idx groups).2.1.length := by
  induction groups with
  | nil => intro idx; exact ⟨rfl, rfl, by simp [rowCells, bucketNamesAt]⟩
  | cons g gs ih =>
    intro idx
    cases hg : g.2[row]? with
    | some a =>
      obtain ⟨ihn, ihf, ihi⟩ := ih (idx + 1)
      refine ⟨?_, ?_, ?_⟩
      · simp only [rowCells, hg, bucketNamesAt, List.filterMap_cons, Option.map_some']
        rw [ihn]
        rfl
      · simp only [rowCells, hg, List.filter_cons, mkCell_beq_empty, Bool.not_false, if_pos]
        rw [ihf]
        rfl
      · simp only [rowCells, hg, List.length_cons]
        rw [ihi]
        omega
    | none =>
      obtain ⟨ihn, ihf, ihi⟩ := ih idx
      refine ⟨?_, ?_, ?_⟩
      · simp only [rowCells, hg, bucketNamesAt, List.filterMap_cons, Option.map_none']
        rw [ihn]
        rfl
      · simp only [rowCells, hg, List.filter_cons]
        rw [show ((("" : String) == "")) = true from rfl]
        simp only [Bool.not_true, Bool.false_eq_true, if_false]
        exact ihf
      · simpa only [rowCells, hg] using ihi

/-- The whole table: `actor_list` is the row-major, bucket-minor scan of
the non-blank cells, and the rendered non-blank cell texts number that
list consecutively from the starting display index. -/
theorem renderRows_spec (groups : List (String × List ActorSummary)) :
    ∀ (rs : List Nat) (idx : Nat),
      (renderRows groups rs idx).2 = rs.flatMap (fun r => bucketNamesAt groups r)
      ∧ ((renderRows groups rs idx).1.flatten.filter (fun c => !(c == "")))
          = numberFrom idx (renderRows groups rs idx).2 := by
  intro rs
  induction rs with
  | nil => intro idx; exact ⟨rfl, rfl⟩
  | cons r rs ih =>
    intro idx
    obtain ⟨hnames, hfilter, hidx⟩ := rowCells_spec r groups idx
    obtain ⟨ihnames, ihfilter⟩ := ih (rowCells r idx groups).2.2
    constructor
    · simp only [renderRows, List.flatMap_cons]
      rw [hnames, ihnames]
    · simp only [renderRows, List.flatten_cons, List.filter_append]
      rw [hfilter, ihfilter, numberFrom_append, ← hidx]

/-- C1: whenever the grouped display returns (`some`), the returned
`actor_list` (`names`) has exactly one entry per non-blank cell of the
rendered table; the non-blank cells, read in row-major, bucket-minor
order, are exactly the entries of `names` numbered `1.`, `2.`, ... - so
the printed 1-based display index `i` resolves back to `names[i-1]` - and
`names` equals the spec's row-major, bucket-minor scan of the bucket
layout. -/
theorem c1_grouped_mapping (key : ActorSummary → String) (actors : List ActorSummary)
    (width : Nat) (groups : List (String × List ActorSummary)) (numRows : Nat)
    (rows : List (List String)) (names : List String)
    (hp : layoutParams key actors width = some (groups, numRows))
    (hd : displayGrouped key actors width = some (rows, names)) :
    names.length = (rows.flatten.filter (fun c => !(c == ""))).length
    ∧ rows.flatten.filter (fun c => !(c == "")) = numberFrom 1 names
    ∧ names = specScanNames groups numRows := by
  have hd2 : displayGrouped key actors width
      = some (renderRows groups (List.range numRows) 1) := by
    unfold displayGrouped
    rw [hp]
  rw [hd] at hd2
  have hpair := Option.some_inj.mp hd2
  have hrows : rows = (renderRows groups (List.range numRows) 1).1 := congrArg Prod.fst hpair
  have hnames : names = (renderRows groups (List.range numRows) 1).2 := congrArg Prod.snd hpair
  obtain ⟨h1, h2⟩ := renderRows_spec groups (List.range numRows) 1
  rw [hrows, hnames]
  refine ⟨?_, h2, ?_⟩
  · rw [h2, numberFrom_length]
  · rw [h1]
    rfl

/-! ## Store lemmas shared by C2, C9 and C10

The resolvers touch the store through exactly two operations: the
`next(...)` lookup (`List.find?`) and the in-place enrichment
(`updateFirst`).  The lemmas below show both operations ignore objects
that can never satisfy the lookup predicate, and how `updateFirst`
decomposes around such an object. -/

theorem apPred_eq_false_of (r : String) (o : StixObject)
    (h : o.type_ = "attack-pattern" → o.id ≠ r) : apPred r o = false := by
  cases htype : (o.type_ == "attack-pattern") with
  | false => simp [apPred, htype]
  | true =>
    have hid : o.id ≠ r := h (beq_iff_eq.mp htype)
    simp [apPred, htype, beq_eq_false_iff_ne.mpr hid]

theorem apPred_eq_false (r : String) (o : StixObject)
    (h : o.type_ ≠ "attack-pattern") : apPred r o = false :=
  apPred_eq_false_of r o (fun ht => absurd ht h)

theorem intrusionPred_eq_false_of (r : String) (o : StixObject)
    (h : o.type_ = "intrusion-set" → o.id ≠ r) : intrusionPred r o = false := by
  cases htype : (o.type_ == "intrusion-set") with
  | false => simp [intrusionPred, htype]
  | true =>
    have hid : o.id ≠ r := h (beq_iff_eq.mp htype)
    simp [intrusionPred, htype, beq_eq_false_iff_ne.mpr hid]

theorem intrusionPred_eq_false (r : String) (o : StixObject)
    (h : o.type_ ≠ "intrusion-set") : intrusionPred r o = false :=
  intrusionPred_eq_false_of r o (fun ht => absurd ht h)

theorem find?_middle_of_neg {α : Type} (p : α → Bool) (a b : List α) (x : α)
    (hx : p x = false) : (a ++ x :: b).find? p = (a ++ b).find? p := by
  rw [List.find?_append, List.find?_append, List.find?_cons, hx]

theorem updateFirst_cons_neg {α : Type} (p : α → Bool) (f : α → α) (x : α) (b : List α)
    (hx : p x = false) : updateFirst p f (x :: b) = x :: updateFirst p f b := by
  simp [updateFirst, hx]

theorem updateFirst_middle_tri {α : Type} (p : α → Bool) (f : α → α) (x y : α)
    (hx : p x = false) (hy : p y = false) :
    ∀ a b : List α, ∃ a2 b2 : List α,
      updateFirst p f (a ++ x :: b) = a2 ++ x :: b2
      ∧ updateFirst p f (a ++ y :: b) = a2 ++ y :: b2
      ∧ updateFirst p f (a ++ b) = a2 ++ b2 := by
  intro a
  induction a with
  | nil =>
    intro b
    refine ⟨[], updateFirst p f b, ?_, ?_, ?_⟩ <;>
      simp [updateFirst_cons_neg, hx, hy]
  | cons h a ih =>
    intro b
    by_cases hph : p h = true
    · exact ⟨f h :: a, b, by simp [updateFirst, hph], by simp [updateFirst, hph],
        by simp [updateFirst, hph]⟩
    · obtain ⟨a2, b2, e1, e2, e3⟩ := ih b
      have hph2 : p h = false := by simp_all
      exact ⟨h :: a2, b2, by simp [updateFirst, hph2, e1], by simp [updateFirst, hph2, e2],
        by simp [updateFirst, hph2, e3]⟩

theorem mem_updateFirst {α : Type} (p : α → Bool) (f : α → α) :
    ∀ (s : List α) (o : α), o ∈ updateFirst p f s → o ∈ s ∨ ∃ o2 ∈ s, o = f o2 := by
  intro s
  induction s with
  | nil => intro o ho; exact absurd ho (by simp [updateFirst])
  | cons h rest ih =>
    intro o ho
    by_cases hph : p h = true
    · rw [updateFirst, if_pos hph] at ho
      rcases List.mem_cons.mp ho with he | hrest
      · exact Or.inr ⟨h, List.mem_cons_self h rest, he⟩
      · exact Or.inl (List.mem_cons_of_mem h hrest)
    · rw [updateFirst, if_neg hph] at ho
      rcases List.mem_cons.mp ho with he | hrest
      · exact Or.inl (he ▸ List.mem_cons_self h rest)
      · rcases ih o hrest with h1 | ⟨o2, ho2, he2⟩
        · exact Or.inl (List.mem_cons_of_mem h h1)
        · exact Or.inr ⟨o2, List.mem_cons_of_mem h ho2, he2⟩

theorem c1_grouped_mapping_witness :
    (["Alpha", "Gamma", "Beta"] : List String).length
        = (([["1. Alpha", "2. Gamma"], ["3. Beta", ""]] : List (List String)).flatten.filter
            (fun c => !(c == ""))).length
    ∧ ([["1. Alpha", "2. Gamma"], ["3. Beta", ""]] : List (List String)).flatten.filter
          (fun c => !(c == "")) = numberFrom 1 ["Alpha", "Gamma", "Beta"]
    ∧ (["Alpha", "Gamma", "Beta"] : List String)
        = specScanNames [("China", [demoAlpha, demoBeta]), ("Russia", [demoGamma])] 2 :=
  c1_grouped_mapping (fun a => a.geo_info) [demoAlpha, demoBeta, demoGamma] 16
    [("China", [demoAlpha, demoBeta]), ("Russia", [demoGamma])] 2
    [["1. Alpha", "2. Gamma"], ["3. Beta", ""]] ["Alpha", "Gamma", "Beta"]
    (by decide) (by decide)

/-! ## Lockstep lemmas for `get_techniques_for_actor` -/

/-- One scan step behaves identically on three stores that differ only by
one non-attack-pattern object `x` (respectively `y`) wedged between the
common parts `a` and `b`: either all three raise the same error, or all
three succeed with the same collected technique and stores of the same
decomposed shape; on success the updated store is either untouched or one
`updateFirst`-enrichment of the incoming store. -/
theorem gtfaStep_skip (aid : String) (o : StixObject) (store : List StixObject)
    (hc : (o.type_ == "relationship" && o.source_ref == some aid) = false) :
    gtfaStep aid o store = Except.ok (store, none) := by
  simp [gtfaStep, hc]

theorem gtfaStep_error (aid : String) (o : StixObject) (store : List StixObject)
    (hc : (o.type_ == "relationship" && o.source_ref == some aid) = true)
    (htr : o.target_ref = none) :
    gtfaStep aid o store = Except.error () := by
  simp [gtfaStep, hc, htr]

theorem gtfaStep_nosub (aid : String) (o : StixObject) (store : List StixObject) (tref : String)
    (hc : (o.type_ == "relationship" && o.source_ref == some aid) = true)
    (htr : o.target_ref = some tref)
    (hsub : pyIn "attack-pattern" tref = false) :
    gtfaStep aid o store = Except.ok (store, none) := by
  simp [gtfaStep, hc, htr, hsub]

theorem gtfaStep_miss (aid : String) (o : StixObject) (store : List StixObject) (tref : String)
    (hc : (o.type_ == "relationship" && o.source_ref == some aid) = true)
    (htr : o.target_ref = some tref)
    (hsub : pyIn "attack-pattern" tref = true)
    (hf : store.find? (apPred tref) = none) :
    gtfaStep aid o store = Except.ok (store, none) := by
  simp [gtfaStep, hc, htr, hsub, hf]

theorem gtfaStep_hit (aid : String) (o : StixObject) (store : List StixObject)
    (tref : String) (tt : StixObject)
    (hc : (o.type_ == "relationship" && o.source_ref == some aid) = true)
    (htr : o.target_ref = some tref)
    (hsub : pyIn "attack-pattern" tref = true)
    (hf : store.find? (apPred tref) = some tt) :
    gtfaStep aid o store
      = Except.ok (updateFirst (apPred tref) enrich store, some (enrich tt)) := by
  simp [gtfaStep, hc, htr, hsub, hf]

theorem gtfaStep_store_tri (aid : String) (o x y : StixObject) (a b : List StixObject)
    (hx : x.type_ ≠ "attack-pattern") (hy : y.type_ ≠ "attack-pattern") :
    (∃ e, gtfaStep aid o (a ++ x :: b) = Except.error e
      ∧ gtfaStep aid o (a ++ y :: b) = Except.error e
      ∧ gtfaStep aid o (a ++ b) = Except.error e)
    ∨ (∃ (a2 b2 : List StixObject) (ores : Option StixObject),
        gtfaStep aid o (a ++ x :: b) = Except.ok (a2 ++ x :: b2, ores)
        ∧ gtfaStep aid o (a ++ y :: b) = Except.ok (a2 ++ y :: b2, ores)
        ∧ gtfaStep aid o (a ++ b) = Except.ok (a2 ++ b2, ores)
        ∧ (a2 = a ∧ b2 = b ∨ ∃ tref,
            a2 ++ x :: b2 = updateFirst (apPred tref) enrich (a ++ x :: b))) := by
  cases hc : (o.type_ == "relationship" && o.source_ref == some aid) with
  | false =>
    exact Or.inr ⟨a, b, none, gtfaStep_skip aid o _ hc, gtfaStep_skip aid o _ hc,
      gtfaStep_skip aid o _ hc, Or.inl ⟨rfl, rfl⟩⟩
  | true =>
    cases htr : o.target_ref with
    | none =>
      exact Or.inl ⟨(), gtfaStep_error aid o _ hc htr, gtfaStep_error aid o _ hc htr,
        gtfaStep_error aid o _ hc htr⟩
    | some tref =>
      cases hsub : pyIn "attack-pattern" tref with
      | false =>
        exact Or.inr ⟨a, b, none, gtfaStep_nosub aid o _ tref hc htr hsub,
          gtfaStep_nosub aid o _ tref hc htr hsub, gtfaStep_nosub aid o _ tref hc htr hsub,
          Or.inl ⟨rfl, rfl⟩⟩
      | true =>
        have hfx : apPred tref x = false := apPred_eq_false tref x hx
        have hfy : apPred tref y = false := apPred_eq_false tref y hy
        cases hf : (a ++ b).find? (apPred tref) with
        | none =>
          have hf1 : (a ++ x :: b).find? (apPred tref) = none :=
            (find?_middle_of_neg (apPred tref) a b x hfx).trans hf
          have hf2 : (a ++ y :: b).find? (apPred tref) = none :=
            (find?_middle_of_neg (apPred tref) a b y hfy).trans hf
          exact Or.inr ⟨a, b, none, gtfaStep_miss aid o _ tref hc htr hsub hf1,
            gtfaStep_miss aid o _ tref hc htr hsub hf2,
            gtfaStep_miss aid o _ tref hc htr hsub hf, Or.inl ⟨rfl, rfl⟩⟩
        | some tt =>
          have hf1 : (a ++ x :: b).find? (apPred tref) = some tt :=
            (find?_middle_of_neg (apPred tref) a b x hfx).trans hf
          have hf2 : (a ++ y :: b).find? (apPred tref) = some tt :=
            (find?_middle_of_neg (apPred tref) a b y hfy).trans hf
          obtain ⟨a2, b2, e1, e2, e3⟩ :=
            updateFirst_middle_tri (apPred tref) enrich x y hfx hfy a b
          exact Or.inr ⟨a2, b2, some (enrich tt),
            (gtfaStep_hit aid o _ tref tt hc htr hsub hf1).trans (by rw [e1]),
            (gtfaStep_hit aid o _ tref tt hc htr hsub hf2).trans (by rw [e2]),
            (gtfaStep_hit aid o _ tref tt hc htr hsub hf).trans (by rw [e3]),
            Or.inr ⟨tref, e1.symm⟩⟩

/-- Removing a non-attack-pattern object from the store (not from the
scanned list) never changes the error status or the collected
techniques. -/
theorem gtfaGo_store_omit (aid : String) (x : StixObject)
    (hx : x.type_ ≠ "attack-pattern") :
    ∀ (outer a b acc : List StixObject),
      Except.map Prod.fst (gtfaGo aid outer (a ++ x :: b) acc)
        = Except.map Prod.fst (gtfaGo aid outer (a ++ b) acc) := by
  intro outer
  induction outer with
  | nil => intro a b acc; rfl
  | cons o rest ih =>
    intro a b acc
    rcases gtfaStep_store_tri aid o x x a b hx hx with
      ⟨e, h1, _, h3⟩ | ⟨a2, b2, ores, h1, _, h3, _⟩
    · simp only [gtfaGo, h1, h3]
    · cases ores with
      | none => simp only [gtfaGo, h1, h3]; exact ih a2 b2 acc
      | some tt => simp only [gtfaGo, h1, h3]; exact ih a2 b2 (tt :: acc)

/-- Inserting into both the scanned list and the store a non-attack-pattern
object `x` that the scan skips (under an invariant `P` preserved by
enrichment) leaves the error status and collected techniques unchanged. -/
theorem gtfaGo_insert (aid : String) (x : StixObject) (hx : x.type_ ≠ "attack-pattern")
    (P : List StixObject → Prop)
    (hPupd : ∀ (s : List StixObject) (tref : String),
      P s → P (updateFirst (apPred tref) enrich s))
    (hskip : ∀ s : List StixObject, P s → gtfaStep aid x s = Except.ok (s, none)) :
    ∀ (w t a b acc : List StixObject), P (a ++ x :: b) →
      Except.map Prod.fst (gtfaGo aid (w ++ x :: t) (a ++ x :: b) acc)
        = Except.map Prod.fst (gtfaGo aid (w ++ t) (a ++ b) acc) := by
  intro w
  induction w with
  | nil =>
    intro t a b acc hP
    show Except.map Prod.fst (gtfaGo aid (x :: t) (a ++ x :: b) acc) = _
    simp only [gtfaGo, hskip (a ++ x :: b) hP]
    exact gtfaGo_store_omit aid x hx t a b acc
  | cons o w ih =>
    intro t a b acc hP
    show Except.map Prod.fst (gtfaGo aid (o :: (w ++ x :: t)) (a ++ x :: b) acc)
      = Except.map Prod.fst (gtfaGo aid (o :: (w ++ t)) (a ++ b) acc)
    rcases gtfaStep_store_tri aid o x x a b hx hx with
      ⟨e, h1, _, h3⟩ | ⟨a2, b2, ores, h1, _, h3, hprov⟩
    · simp only [gtfaGo, h1, h3]
    · have hP2 : P (a2 ++ x :: b2) := by
        rcases hprov with ⟨ha, hb⟩ | ⟨tref, heq⟩
        · subst ha; subst hb; exact hP
        · rw [heq]; exact hPupd _ tref hP
      cases ores with
      | none => simp only [gtfaGo, h1, h3]; exact ih t a2 b2 acc hP2
      | some tt => simp only [gtfaGo, h1, h3]; exact ih t a2 b2 (tt :: acc) hP2

/-- One scan step never reads `relationship_type`. -/
theorem gtfaStep_setRT (aid : String) (rel : StixObject) (v : Option String)
    (s : List StixObject) :
    gtfaStep aid (setRelationshipType rel v) s = gtfaStep aid rel s := rfl

/-- Rewriting the `relationship_type` of one non-attack-pattern object (in
both the scanned list and the store) leaves the error status and collected
techniques unchanged. -/
theorem gtfaGo_setRT (aid : String) (rel : StixObject) (v : Option String)
    (hrel : rel.type_ ≠ "attack-pattern") :
    ∀ (w t a b acc : List StixObject),
      Except.map Prod.fst (gtfaGo aid (w ++ setRelationshipType rel v :: t)
          (a ++ setRelationshipType rel v :: b) acc)
        = Except.map Prod.fst (gtfaGo aid (w ++ rel :: t) (a ++ rel :: b) acc) := by
  have hx : (setRelationshipType rel v).type_ ≠ "attack-pattern" := hrel
  intro w
  induction w with
  | nil =>
    intro t a b acc
    show Except.map Prod.fst (gtfaGo aid (setRelationshipType rel v :: t)
        (a ++ setRelationshipType rel v :: b) acc)
      = Except.map Prod.fst (gtfaGo aid (rel :: t) (a ++ rel :: b) acc)
    rcases gtfaStep_store_tri aid rel (setRelationshipType rel v) rel a b hx hrel with
      ⟨e, h1, h2, _⟩ | ⟨a2, b2, ores, h1, h2, _, _⟩
    · simp only [gtfaGo, gtfaStep_setRT, h1, h2]
    · have hmid : ∀ (t2 acc2 : List StixObject),
          Except.map Prod.fst (gtfaGo aid t2 (a2 ++ setRelationshipType rel v :: b2) acc2)
            = Except.map Prod.fst (gtfaGo aid t2 (a2 ++ rel :: b2) acc2) := fun t2 acc2 =>
        (gtfaGo_store_omit aid _ hx t2 a2 b2 acc2).trans
          (gtfaGo_store_omit aid rel hrel t2 a2 b2 acc2).symm
      cases ores with
      | none => simp only [gtfaGo, gtfaStep_setRT, h1, h2]; exact hmid t acc
      | some tt => simp only [gtfaGo, gtfaStep_setRT, h1, h2]; exact hmid t (tt :: acc)
  | cons o w ih =>
    intro t a b acc
    show Except.map Prod.fst (gtfaGo aid (o :: (w ++ setRelationshipType rel v :: t))
        (a ++ setRelationshipType rel v :: b) acc)
      = Except.map Prod.fst (gtfaGo aid (o :: (w ++ rel :: t)) (a ++ rel :: b) acc)
    rcases gtfaStep_store_tri aid o (setRelationshipType rel v) rel a b hx hrel with
      ⟨e, h1, h2, _⟩ | ⟨a2, b2, ores, h1, h2, _, _⟩
    · simp only [gtfaGo, h1, h2]
    · cases ores with
      | none => simp only [gtfaGo, h1, h2]; exact ih t a2 b2 acc
      | some tt => simp only [gtfaGo, h1, h2]; exact ih t a2 b2 (tt :: acc)

/-! ## Lemmas for `get_actors_for_tool` (pure, no store mutation) -/

theorem gaftGo_cons_skip (tid : String) (table : List StixObject) (x : StixObject)
    (rest : List StixObject)
    (hc : (x.type_ == "relationship" && x.target_ref == some tid) = false) :
    gaftGo tid table (x :: rest) = gaftGo tid table rest := by
  simp [gaftGo, hc]

theorem gaftGo_cons_error (tid : String) (table : List StixObject) (x : StixObject)
    (rest : List StixObject)
    (hc : (x.type_ == "relationship" && x.target_ref == some tid) = true)
    (hsr : x.source_ref = none) :
    gaftGo tid table (x :: rest) = Except.error () := by
  simp [gaftGo, hc, hsr]

theorem gaftGo_cons_nosub (tid : String) (table : List StixObject) (x : StixObject)
    (rest : List StixObject) (r : String)
    (hc : (x.type_ == "relationship" && x.target_ref == some tid) = true)
    (hsr : x.source_ref = some r)
    (hsub : pyIn "intrusion-set" r = false) :
    gaftGo tid table (x :: rest) = gaftGo tid table rest := by
  simp [gaftGo, hc, hsr, hsub]

theorem gaftGo_cons_miss (tid : String) (table : List StixObject) (x : StixObject)
    (rest : List StixObject) (r : String)
    (hc : (x.type_ == "relationship" && x.target_ref == some tid) = true)
    (hsr : x.source_ref = some r)
    (hsub : pyIn "intrusion-set" r = true)
    (hf : table.find? (intrusionPred r) = none) :
    gaftGo tid table (x :: rest) = gaftGo tid table rest := by
  simp [gaftGo, hc, hsr, hsub, hf]

theorem gaftGo_cons_hit (tid : String) (table : List StixObject) (x : StixObject)
    (rest : List StixObject) (r : String) (found : StixObject)
    (hc : (x.type_ == "relationship" && x.target_ref == some tid) = true)
    (hsr : x.source_ref = some r)
    (hsub : pyIn "intrusion-set" r = true)
    (hf : table.find? (intrusionPred r) = some found) :
    gaftGo tid table (x :: rest)
      = (gaftGo tid table rest).map (fun l => mkActorDisp found :: l) := by
  simp [gaftGo, hc, hsr, hsub, hf]

/-- Removing a non-intrusion-set object from the lookup table never
changes the result of the scan. -/
theorem gaftGo_table_omit (tid : String) (x : StixObject)
    (hx : x.type_ ≠ "intrusion-set") :
    ∀ (outer a b : List StixObject),
      gaftGo tid (a ++ x :: b) outer = gaftGo tid (a ++ b) outer := by
  intro outer
  induction outer with
  | nil => intro a b; rfl
  | cons o rest ih =>
    intro a b
    cases hc : (o.type_ == "relationship" && o.target_ref == some tid) with
    | false => rw [gaftGo_cons_skip tid _ o rest hc, gaftGo_cons_skip tid _ o rest hc, ih]
    | true =>
      cases hsr : o.source_ref with
      | none => rw [gaftGo_cons_error tid _ o rest hc hsr, gaftGo_cons_error tid _ o rest hc hsr]
      | some r =>
        cases hsub : pyIn "intrusion-set" r with
        | false =>
          rw [gaftGo_cons_nosub tid _ o rest r hc hsr hsub,
            gaftGo_cons_nosub tid _ o rest r hc hsr hsub, ih]
        | true =>
          have hp : intrusionPred r x = false := intrusionPred_eq_false r x hx
          cases hf : (a ++ b).find? (intrusionPred r) with
          | none =>
            rw [gaftGo_cons_miss tid _ o rest r hc hsr hsub
                ((find?_middle_of_neg (intrusionPred r) a b x hp).trans hf),
              gaftGo_cons_miss tid _ o rest r hc hsr hsub hf, ih]
          | some found =>
            rw [gaftGo_cons_hit tid _ o rest r found hc hsr hsub
                ((find?_middle_of_neg (intrusionPred r) a b x hp).trans hf),
              gaftGo_cons_hit tid _ o rest r found hc hsr hsub hf, ih]

/-- Scanning `w ++ t1` and `w ++ t2` over the same table gives equal
results whenever scanning `t1` and `t2` does. -/
theorem gaftGo_outer_congr (tid : String) (table : List StixObject)
    (t1 t2 : List StixObject) (h : gaftGo tid table t1 = gaftGo tid table t2) :
    ∀ w : List StixObject, gaftGo tid table (w ++ t1) = gaftGo tid table (w ++ t2) := by
  intro w
  induction w with
  | nil => exact h
  | cons o w ih =>
    show gaftGo tid table (o :: (w ++ t1)) = gaftGo tid table (o :: (w ++ t2))
    cases hc : (o.type_ == "relationship" && o.target_ref == some tid) with
    | false => rw [gaftGo_cons_skip tid table o _ hc, gaftGo_cons_skip tid table o _ hc, ih]
    | true =>
      cases hsr : o.source_ref with
      | none => rw [gaftGo_cons_error tid table o _ hc hsr, gaftGo_cons_error tid table o _ hc hsr]
      | some r =>
        cases hsub : pyIn "intrusion-set" r with
        | false =>
          rw [gaftGo_cons_nosub tid table o _ r hc hsr hsub,
            gaftGo_cons_nosub tid table o _ r hc hsr hsub, ih]
        | true =>
          cases hf : table.find? (intrusionPred r) with
          | none =>
            rw [gaftGo_cons_miss tid table o _ r hc hsr hsub hf,
              gaftGo_cons_miss tid table o _ r hc hsr hsub hf, ih]
          | some found =>
            rw [gaftGo_cons_hit tid table o _ r found hc hsr hsub hf,
              gaftGo_cons_hit tid table o _ r found hc hsr hsub hf, ih]

/-! ## C9 - dangling references are silently skipped -/

/-- C9: in both resolver directions, a relationship whose resolved ref
(`target_ref` for techniques-for-actor, `source_ref` for actors-for-tool)
matches no appropriately-typed object in the store contributes nothing:
the call with the dangling relationship inserted anywhere returns exactly
the result of the call without it - same error status, no null entry, all
other entries unaffected.  (For `get_techniques_for_actor` the comparison
is on the returned technique list, the first component; the second
component is this embedding's bookkeeping of the store.) -/
theorem c9_dangling_ref_skipped :
    (∀ (l1 l2 : List StixObject) (rel : StixObject) (aid r : String),
      rel.type_ = "relationship" → rel.target_ref = some r →
      (∀ o ∈ l1 ++ l2, o.type_ = "attack-pattern" → o.id ≠ r) →
      Except.map Prod.fst (get_techniques_for_actor (l1 ++ rel :: l2) aid)
        = Except.map Prod.fst (get_techniques_for_actor (l1 ++ l2) aid))
    ∧ (∀ (l1 l2 : List StixObject) (rel : StixObject) (tid r : String),
      rel.type_ = "relationship" → rel.source_ref = some r →
      (∀ o ∈ l1 ++ l2, o.type_ = "intrusion-set" → o.id ≠ r) →
      get_actors_for_tool (l1 ++ rel :: l2) tid = get_actors_for_tool (l1 ++ l2) tid) := by
  constructor
  · intro l1 l2 rel aid r hty htr hdang
    have hx : rel.type_ ≠ "attack-pattern" := by rw [hty]; decide
    show Except.map Prod.fst (gtfaGo aid (l1 ++ rel :: l2) (l1 ++ rel :: l2) [])
      = Except.map Prod.fst (gtfaGo aid (l1 ++ l2) (l1 ++ l2) [])
    refine gtfaGo_insert aid rel hx (fun s => ∀ o ∈ s, apPred r o = false) ?_ ?_ l1 l2 l1 l2 [] ?_
    · intro s tref hP o ho
      rcases mem_updateFirst (apPred tref) enrich s o ho with h1 | ⟨o2, ho2, he⟩
      · exact hP o h1
      · rw [he]
        exact hP o2 ho2
    · intro s hP
      cases hc : (rel.type_ == "relationship" && rel.source_ref == some aid) with
      | false => exact gtfaStep_skip aid rel s hc
      | true =>
        cases hsub : pyIn "attack-pattern" r with
        | false => exact gtfaStep_nosub aid rel s r hc htr hsub
        | true =>
          exact gtfaStep_miss aid rel s r hc htr hsub
            (List.find?_eq_none.mpr (fun o ho => by rw [hP o ho]; simp))
    · intro o ho
      rcases List.mem_append.mp ho with h1 | h2
      · exact apPred_eq_false_of r o (hdang o (List.mem_append.mpr (Or.inl h1)))
      · rcases List.mem_cons.mp h2 with he | h3
        · rw [he]; exact apPred_eq_false r rel hx
        · exact apPred_eq_false_of r o (hdang o (List.mem_append.mpr (Or.inr h3)))
  · intro l1 l2 rel tid r hty hsr hdang
    have hx : rel.type_ ≠ "intrusion-set" := by rw [hty]; decide
    show gaftGo tid (l1 ++ rel :: l2) (l1 ++ rel :: l2) = gaftGo tid (l1 ++ l2) (l1 ++ l2)
    rw [gaftGo_table_omit tid rel hx (l1 ++ rel :: l2) l1 l2]
    refine gaftGo_outer_congr tid (l1 ++ l2) (rel :: l2) l2 ?_ l1
    cases hc : (rel.type_ == "relationship" && rel.target_ref == some tid) with
    | false => exact gaftGo_cons_skip tid _ rel l2 hc
    | true =>
      cases hsub : pyIn "intrusion-set" r with
      | false => exact gaftGo_cons_nosub tid _ rel l2 r hc hsr hsub
      | true =>
        exact gaftGo_cons_miss tid _ rel l2 r hc hsr hsub
          (List.find?_eq_none.mpr (fun o ho => by
            rw [intrusionPred_eq_false_of r o (hdang o ho)]; simp))

theorem c9_dangling_ref_skipped_witness :
    Except.map Prod.fst
        (get_techniques_for_actor [relDangling, relDemo, apDemo] "intrusion-set--1")
      = Except.map Prod.fst (get_techniques_for_actor [relDemo, apDemo] "intrusion-set--1")
    ∧ get_actors_for_tool [relToolDangling] "tool--1" = get_actors_for_tool [] "tool--1" :=
  ⟨c9_dangling_ref_skipped.1 [] [relDemo, apDemo] relDangling "intrusion-set--1"
      "attack-pattern--9" rfl rfl (by decide),
    c9_dangling_ref_skipped.2 [] [] relToolDangling "tool--1" "intrusion-set--9"
      rfl rfl (by decide)⟩

/-! ## C10 - the relationship admission gate -/

/-- C10: the resolvers never read `relationship_type` - rewriting it on a
relationship changes neither resolver's result - and they admit a
relationship only when the literal target-type substring
(`"attack-pattern"`, or `"intrusion-set"` for the actors-for-tool
direction) occurs inside the relationship's own ref string: a relationship
whose ref string lacks the substring contributes nothing, with no
hypothesis at all about the objects the ref might name (in particular even
when an object of the required type carries that exact id). -/
theorem c10_admission_gate :
    (∀ (l1 l2 : List StixObject) (rel : StixObject) (v : Option String) (aid : String),
      rel.type_ = "relationship" →
      Except.map Prod.fst (get_techniques_for_actor (l1 ++ setRelationshipType rel v :: l2) aid)
        = Except.map Prod.fst (get_techniques_for_actor (l1 ++ rel :: l2) aid))
    ∧ (∀ (l1 l2 : List StixObject) (rel : StixObject) (aid r : String),
      rel.type_ = "relationship" → rel.target_ref = some r →
      pyIn "attack-pattern" r = false →
      Except.map Prod.fst (get_techniques_for_actor (l1 ++ rel :: l2) aid)
        = Except.map Prod.fst (get_techniques_for_actor (l1 ++ l2) aid))
    ∧ (∀ (l1 l2 : List StixObject) (rel : StixObject) (v : Option String) (tid : String),
      rel.type_ = "relationship" →
      get_actors_for_tool (l1 ++ setRelationshipType rel v :: l2) tid
        = get_actors_for_tool (l1 ++ rel :: l2) tid)
    ∧ (∀ (l1 l2 : List StixObject) (rel : StixObject) (tid r : String),
      rel.type_ = "relationship" → rel.source_ref = some r →
      pyIn "intrusion-set" r = false →
      get_actors_for_tool (l1 ++ rel :: l2) tid = get_actors_for_tool (l1 ++ l2) tid) := by
  refine ⟨?_, ?_, ?_, ?_⟩
  · intro l1 l2 rel v aid hty
    have hx : rel.type_ ≠ "attack-pattern" := by rw [hty]; decide
    show Except.map Prod.fst (gtfaGo aid (l1 ++ setRelationshipType rel v :: l2)
        (l1 ++ setRelationshipType rel v :: l2) [])
      = Except.map Prod.fst (gtfaGo aid (l1 ++ rel :: l2) (l1 ++ rel :: l2) [])
    exact gtfaGo_setRT aid rel v hx l1 l2 l1 l2 []
  · intro l1 l2 rel aid r hty htr hsub
    have hx : rel.type_ ≠ "attack-pattern" := by rw [hty]; decide
    show Except.map Prod.fst (gtfaGo aid (l1 ++ rel :: l2) (l1 ++ rel :: l2) [])
      = Except.map Prod.fst (gtfaGo aid (l1 ++ l2) (l1 ++ l2) [])
    refine gtfaGo_insert aid rel hx (fun _ => True) (fun _ _ _ => trivial) ?_ l1 l2 l1 l2 []
      trivial
    intro s _
    cases hc : (rel.type_ == "relationship" && rel.source_ref == some aid) with
    | false => exact gtfaStep_skip aid rel s hc
    | true => exact gtfaStep_nosub aid rel s r hc htr hsub
  · intro l1 l2 rel v tid hty
    have hx1 : (setRelationshipType rel v).type_ ≠ "intrusion-set" := by
      show rel.type_ ≠ "intrusion-set"
      rw [hty]; decide
    have hx2 : rel.type_ ≠ "intrusion-set" := by rw [hty]; decide
    show gaftGo tid (l1 ++ setRelationshipType rel v :: l2)
        (l1 ++ setRelationshipType rel v :: l2)
      = gaftGo tid (l1 ++ rel :: l2) (l1 ++ rel :: l2)
    rw [gaftGo_table_omit tid _ hx1 _ l1 l2, gaftGo_table_omit tid rel hx2 _ l1 l2]
    exact gaftGo_outer_congr tid (l1 ++ l2) (setRelationshipType rel v :: l2) (rel :: l2)
      rfl l1
  · intro l1 l2 rel tid r hty hsr hsub
    have hx : rel.type_ ≠ "intrusion-set" := by rw [hty]; decide
    show gaftGo tid (l1 ++ rel :: l2) (l1 ++ rel :: l2) = gaftGo tid (l1 ++ l2) (l1 ++ l2)
    rw [gaftGo_table_omit tid rel hx (l1 ++ rel :: l2) l1 l2]
    refine gaftGo_outer_congr tid (l1 ++ l2) (rel :: l2) l2 ?_ l1
    cases hc : (rel.type_ == "relationship" && rel.target_ref == some tid) with
    | false => exact gaftGo_cons_skip tid _ rel l2 hc
    | true => exact gaftGo_cons_nosub tid _ rel l2 r hc hsr hsub

theorem c10_admission_gate_witness :
    Except.map Prod.fst
        (get_techniques_for_actor [setRelationshipType relDemo (some "attributed-to"), apDemo]
          "intrusion-set--1")
      = Except.map Prod.fst (get_techniques_for_actor [relDemo, apDemo] "intrusion-set--1")
    ∧ Except.map Prod.fst (get_techniques_for_actor [relOdd, apDemo] "intrusion-set--1")
      = Except.map Prod.fst (get_techniques_for_actor [apDemo] "intrusion-set--1")
    ∧ get_actors_for_tool [setRelationshipType relToolDangling none] "tool--1"
      = get_actors_for_tool [relToolDangling] "tool--1"
    ∧ get_actors_for_tool [relToolMalware, intrusionA] "tool--1"
      = get_actors_for_tool [intrusionA] "tool--1" :=
  ⟨c10_admission_gate.1 [] [apDemo] relDemo (some "attributed-to") "intrusion-set--1" rfl,
    c10_admission_gate.2.1 [] [apDemo] relOdd "intrusion-set--1" "course-of-action--11"
      rfl rfl (by decide),
    c10_admission_gate.2.2.1 [] [] relToolDangling none "tool--1" rfl,
    c10_admission_gate.2.2.2 [] [intrusionA] relToolMalware "tool--1" "malware--3"
      rfl rfl (by decide)⟩

/-! ## C2 - the store is mutated, not copied -/

theorem enrich_enrich (o : StixObject) : enrich (enrich o) = enrich o := rfl

theorem mutOk_trans (a b c : StixObject) (h1 : mutOk a b) (h2 : mutOk b c) : mutOk a c := by
  rcases h1 with rfl | ⟨ht, rfl⟩
  · exact h2
  · rcases h2 with rfl | ⟨ht2, rfl⟩
    · exact Or.inr ⟨ht, rfl⟩
    · exact Or.inr ⟨ht, enrich_enrich a⟩

theorem forall₂_mutOk_refl (s : List StixObject) : List.Forall₂ mutOk s s :=
  List.forall₂_same.mpr (fun _ _ => Or.inl rfl)

theorem forall₂_mutOk_updateFirst (tref : String) :
    ∀ s : List StixObject, List.Forall₂ mutOk s (updateFirst (apPred tref) enrich s) := by
  intro s
  induction s with
  | nil => exact List.Forall₂.nil
  | cons o rest ih =>
    by_cases h : apPred tref o = true
    · rw [updateFirst, if_pos h]
      have hty : o.type_ = "attack-pattern" := by
        have h2 := h
        simp only [apPred, Bool.and_eq_true, beq_iff_eq] at h2
        exact h2.1
      exact List.Forall₂.cons (Or.inr ⟨hty, rfl⟩) (forall₂_mutOk_refl rest)
    · rw [updateFirst, if_neg h]
      exact List.Forall₂.cons (Or.inl rfl) ih

theorem forall₂_mutOk_trans :
    ∀ {l1 l2 l3 : List StixObject},
      List.Forall₂ mutOk l1 l2 → List.Forall₂ mutOk l2 l3 → List.Forall₂ mutOk l1 l3 := by
  intro l1 l2 l3 h1
  induction h1 generalizing l3 with
  | nil => intro h2; cases h2; exact List.Forall₂.nil
  | cons hab h1 ih =>
    intro h2
    cases h2 with
    | cons hbc h2 => exact List.Forall₂.cons (mutOk_trans _ _ _ hab hbc) (ih h2)

/-- Any successful scan step leaves the store untouched or applies exactly
one `updateFirst`-enrichment to it. -/
theorem gtfaStep_ok_cases (aid : String) (o : StixObject)
    (store store' : List StixObject) (ores : Option StixObject)
    (h : gtfaStep aid o store = Except.ok (store', ores)) :
    store' = store ∨ ∃ tref, store' = updateFirst (apPred tref) enrich store := by
  cases hc : (o.type_ == "relationship" && o.source_ref == some aid) with
  | false =>
    rw [gtfaStep_skip aid o store hc] at h
    simp only [Except.ok.injEq, Prod.mk.injEq] at h
    exact Or.inl h.1.symm
  | true =>
    cases htr : o.target_ref with
    | none =>
      rw [gtfaStep_error aid o store hc htr] at h
      exact absurd h (by simp)
    | some tref =>
      cases hsub : pyIn "attack-pattern" tref with
      | false =>
        rw [gtfaStep_nosub aid o store tref hc htr hsub] at h
        simp only [Except.ok.injEq, Prod.mk.injEq] at h
        exact Or.inl h.1.symm
      | true =>
        cases hf : store.find? (apPred tref) with
        | none =>
          rw [gtfaStep_miss aid o store tref hc htr hsub hf] at h
          simp only [Except.ok.injEq, Prod.mk.injEq] at h
          exact Or.inl h.1.symm
        | some tt =>
          rw [gtfaStep_hit aid o store tref tt hc htr hsub hf] at h
          simp only [Except.ok.injEq, Prod.mk.injEq] at h
          exact Or.inr ⟨tref, h.1.symm⟩

/-- Invariant of the whole scan: on success the final store is related to
the starting store pointwise by `mutOk`. -/
theorem gtfaGo_mutOk (aid : String) :
    ∀ (outer store acc ts fin : List StixObject),
      gtfaGo aid outer store acc = Except.ok (ts, fin) → List.Forall₂ mutOk store fin := by
  intro outer
  induction outer with
  | nil =>
    intro store acc ts fin h
    simp only [gtfaGo, Except.ok.injEq, Prod.mk.injEq] at h
    rw [← h.2]
    exact forall₂_mutOk_refl store
  | cons o rest ih =>
    intro store acc ts fin h
    cases hstep : gtfaStep aid o store with
    | error e =>
      simp only [gtfaGo, hstep] at h
      exact Except.noConfusion h
    | ok p =>
      obtain ⟨store', ores⟩ := p
      have hrel : List.Forall₂ mutOk store store' := by
        rcases gtfaStep_ok_cases aid o store store' ores hstep with rfl | ⟨tref, rfl⟩
        · exact forall₂_mutOk_refl store'
        · exact forall₂_mutOk_updateFirst tref store
      cases ores with
      | none =>
        simp only [gtfaGo, hstep] at h
        exact forall₂_mutOk_trans hrel (ih store' acc ts fin h)
      | some tt =>
        simp only [gtfaGo, hstep] at h
        exact forall₂_mutOk_trans hrel (ih store' (tt :: acc) ts fin h)

/-- C2: the claim says deriving summaries never mutates the stored raw
objects.  Running `get_techniques_for_actor` on a two-object bundle
returns the bundle with the attack-pattern object overwritten in place:
the stored object acquires `platforms` and `kill_chain_phase` keys it did
not have, so the final store differs from the loaded bundle, and the
returned "summary" is that same store object, not a value copy. -/
theorem c2_counterexample :
    get_techniques_for_actor [relDemo, apDemo] "intrusion-set--1"
      = Except.ok ([enrich apDemo], [relDemo, enrich apDemo])
    ∧ [relDemo, enrich apDemo] ≠ [relDemo, apDemo]
    ∧ apDemo.platforms = none
    ∧ (enrich apDemo).platforms = some "Windows, Linux" := by
  exact ⟨rfl, by decide, rfl, by decide⟩

/-- C2 amended: after a successful `get_techniques_for_actor` call, every
object of the bundle is either exactly its loaded value or an
attack-pattern replaced in place by its enriched copy (same object with
the `platforms` / `kill_chain_phase` keys set); no object of any other
type is ever touched, and no other field of an attack-pattern changes. -/
theorem c2_amended (bundle : List StixObject) (aid : String)
    (ts fin : List StixObject)
    (h : get_techniques_for_actor bundle aid = Except.ok (ts, fin)) :
    List.Forall₂ mutOk bundle fin :=
  gtfaGo_mutOk aid bundle bundle [] ts fin h

theorem c2_amended_witness :
    List.Forall₂ mutOk [relDemo, apDemo] [relDemo, enrich apDemo] :=
  c2_amended [relDemo, apDemo] "intrusion-set--1" [enrich apDemo]
    [relDemo, enrich apDemo] rfl

end MitreSim
